import Mathlib

/-!
Shallow embedding of the `week-1` in-memory book CRUD HTTP service
(`src/week-1/src/main.rs`): data model (`Book`, `Storage`), the serde-style
JSON decoders for the request payloads, the serde_json-style response
serialization, the five request handlers and the method/path dispatcher.

Modelling conventions:
* Rust `u64` is modelled as `Nat`; the one place where the 64-bit range is
  observable at the interface (`str::parse::<u64>` rejecting an overflowing
  numeral) carries an explicit `< 2 ^ 64` bound.  The `next_id` counter is
  modelled without wrap-around, matching the spec's stated assumption of
  non-exhaustion of the identifier space.
* `HashMap<u64, Book>` is modelled as an association list with the usual
  map semantics (`lookupBook`, `replaceBook` for in-place `get_mut`
  mutation, `removeBook`, `insertBook`).  All reachable stores have
  pairwise-distinct keys (proved below), under which these agree with the
  Rust map operations.
* A request body is an `Option Json`: `none` stands for a body that is not
  well-formed JSON (serde_json parse failure), `some j` for the parsed
  JSON document.  Struct deserialization is modelled from a JSON object
  (map) as serde's derived visitor does: unknown fields are ignored,
  duplicate known fields are an error, a `String` field must be a JSON
  string, an `Option<String>` field maps JSON `null` to `None` and may be
  absent (defaulting to `None`).
-/

namespace BookService

/-- Book record, mirroring `struct Book` (fields `id : u64`,
`title : String`, `author : String`, `isbn : Option<String>`). -/
structure Book where
  id : Nat
  title : String
  author : String
  isbn : Option String
deriving DecidableEq, Repr

/-- Creation payload, mirroring `struct CreateBookRequest`
(`title : String`, `author : String`, `isbn : Option<String>`). -/
structure CreateBookRequest where
  title : String
  author : String
  isbn : Option String
deriving DecidableEq, Repr

/-- Partial-update payload, mirroring `struct UpdateBookRequest`
(all three fields `Option<String>`). -/
structure UpdateBookRequest where
  title : Option String
  author : Option String
  isbn : Option String
deriving DecidableEq, Repr

/-- Parsed JSON documents, as produced by `serde_json` from a request body. -/
inductive Json where
  | null
  | bool (b : Bool)
  | num (n : Int)
  | str (s : String)
  | arr (elems : List Json)
  | obj (fields : List (String × Json))

/-- Lookup in the association list modelling `HashMap<u64, Book>`
(first entry with the given key, as in `books.get(&id)`). -/
def lookupBook (k : Nat) : List (Nat × Book) → Option Book
  | [] => none
  | (k', b) :: rest => if k' = k then some b else lookupBook k rest

/-- Key-membership test, as in `HashMap::contains_key`. -/
def containsBook (k : Nat) (l : List (Nat × Book)) : Bool :=
  (lookupBook k l).isSome

/-- Replace the value stored at key `k` in place, leaving the rest of the
list untouched; models mutating through `books.get_mut(&id)`. -/
def replaceBook (k : Nat) (v : Book) : List (Nat × Book) → List (Nat × Book)
  | [] => []
  | (k', b) :: rest =>
    if k' = k then (k, v) :: rest else (k', b) :: replaceBook k v rest

/-- Remove every entry with key `k`; models `HashMap::remove` (on the
reachable stores, whose keys are pairwise distinct, at most one entry is
removed, exactly as in Rust). -/
def removeBook (k : Nat) : List (Nat × Book) → List (Nat × Book)
  | [] => []
  | (k', b) :: rest =>
    if k' = k then removeBook k rest else (k', b) :: removeBook k rest

/-- Insert a binding for key `k`; models `HashMap::insert` (replace when the
key is present, add a new entry otherwise). -/
def insertBook (k : Nat) (v : Book) (l : List (Nat × Book)) : List (Nat × Book) :=
  if containsBook k l then replaceBook k v l else l ++ [(k, v)]

/-- The store, mirroring `struct Storage`: the book map and the `next_id`
counter. -/
structure Storage where
  books : List (Nat × Book)
  next_id : Nat
deriving DecidableEq, Repr

/-- Initial store, mirroring `Storage::new()`: empty map, counter `1`. -/
def Storage.new : Storage :=
  { books := [], next_id := 1 }

/-- Decode a serde `String` field value: only a JSON string is accepted. -/
def decodeString : Json → Option String
  | .str s => some s
  | _ => none

/-- Decode a serde `Option<String>` field value: JSON `null` becomes `none`,
a JSON string becomes `some`, anything else is a type error. -/
def decodeOptString : Json → Option (Option String)
  | .null => some none
  | .str s => some (some s)
  | _ => none

/-- Field loop of the derived `Deserialize` for `CreateBookRequest`: walk the
object's entries, filling per-field slots (`none` = not yet seen), erroring
on a duplicate known field or an ill-typed value, ignoring unknown fields;
at the end `title` and `author` must have been seen, `isbn` defaults to
`None`. -/
def decodeCreateFields :
    List (String × Json) → Option String → Option String →
    Option (Option String) → Option CreateBookRequest
  | [], some t, some a, i => some ⟨t, a, i.getD none⟩
  | [], _, _, _ => none
  | (k, v) :: rest, t, a, i =>
    if k = "title" then
      if t.isSome then none
      else (decodeString v).bind fun s => decodeCreateFields rest (some s) a i
    else if k = "author" then
      if a.isSome then none
      else (decodeString v).bind fun s => decodeCreateFields rest t (some s) i
    else if k = "isbn" then
      if i.isSome then none
      else (decodeOptString v).bind fun o => decodeCreateFields rest t a (some o)
    else
      decodeCreateFields rest t a i

/-- Deserialization of `CreateBookRequest` from a JSON document, as in
`serde_json::from_slice::<CreateBookRequest>` on a parsed body (struct from
a JSON object; no claim exercises serde_json's struct-from-array path, which
is not modelled). -/
def decodeCreate : Json → Option CreateBookRequest
  | .obj fs => decodeCreateFields fs none none none
  | _ => none

/-- Field loop of the derived `Deserialize` for `UpdateBookRequest`: all
three fields are `Option<String>` and may be absent. -/
def decodeUpdateFields :
    List (String × Json) → Option (Option String) → Option (Option String) →
    Option (Option String) → Option UpdateBookRequest
  | [], t, a, i => some ⟨t.getD none, a.getD none, i.getD none⟩
  | (k, v) :: rest, t, a, i =>
    if k = "title" then
      if t.isSome then none
      else (decodeOptString v).bind fun o => decodeUpdateFields rest (some o) a i
    else if k = "author" then
      if a.isSome then none
      else (decodeOptString v).bind fun o => decodeUpdateFields rest t (some o) i
    else if k = "isbn" then
      if i.isSome then none
      else (decodeOptString v).bind fun o => decodeUpdateFields rest t a (some o)
    else
      decodeUpdateFields rest t a i

/-- Deserialization of `UpdateBookRequest` from a JSON document, as in
`serde_json::from_slice::<UpdateBookRequest>` on a parsed body. -/
def decodeUpdate : Json → Option UpdateBookRequest
  | .obj fs => decodeUpdateFields fs none none none
  | _ => none

/-- HTTP response as observed by the client: status code, whether the
`Content-Type: application/json` header is set, and the body text. -/
structure HttpResponse where
  status : Nat
  contentTypeJson : Bool
  body : String
deriving DecidableEq, Repr

/-- Mirrors `bad_request(message)`: `400` with a plain-text body. -/
def bad_request (message : String) : HttpResponse :=
  { status := 400, contentTypeJson := false, body := message }

/-- Mirrors `not_found()`: `404` with the plain-text body `Not found`. -/
def not_found : HttpResponse :=
  { status := 404, contentTypeJson := false, body := "Not found" }

/-- Mirrors the `204 No Content` response built in `delete_book`. -/
def no_content : HttpResponse :=
  { status := 204, contentTypeJson := false, body := "" }

/-- Mirrors `json_response(status, data)` on the success path
(serialization of a well-formed `Book` value never fails). -/
def json_response (status : Nat) (body : String) : HttpResponse :=
  { status := status, contentTypeJson := true, body := body }

/-- Lower-case hexadecimal digit, as used by serde_json's `\u00XX` escapes. -/
def hexDigitChar (n : Nat) : Char :=
  if n < 10 then Char.ofNat (48 + n) else Char.ofNat (87 + n)

/-- Escape one character of a JSON string the way serde_json does: quote and
backslash are backslash-escaped, the named control escapes are used for
backspace, tab, newline, form feed and carriage return, any other control
character becomes `\u00XX`, everything else is emitted verbatim. -/
def escapeChar (c : Char) : List Char :=
  if c = '"' then ['\\', '"']
  else if c = '\\' then ['\\', '\\']
  else if c.toNat = 8 then ['\\', 'b']
  else if c.toNat = 9 then ['\\', 't']
  else if c.toNat = 10 then ['\\', 'n']
  else if c.toNat = 12 then ['\\', 'f']
  else if c.toNat = 13 then ['\\', 'r']
  else if c.toNat < 32 then
    ['\\', 'u', '0', '0', hexDigitChar (c.toNat / 16), hexDigitChar (c.toNat % 16)]
  else [c]

/-- Serialize a string as a JSON string literal, serde_json style. -/
def renderString (s : String) : String :=
  ⟨'"' :: (s.data.map escapeChar).flatten ++ ['"']⟩

/-- Serialize an `Option<String>` field value: `None` is `null`. -/
def renderOptString : Option String → String
  | none => "null"
  | some s => renderString s

/-- Serialization of a `Book` by the derived `Serialize` under
`serde_json::to_string`: a compact object with the fields in declaration
order `id`, `title`, `author`, `isbn`. -/
def renderBook (b : Book) : String :=
  "\x7b\"id\":" ++ toString b.id ++ ",\"title\":" ++ renderString b.title ++
    ",\"author\":" ++ renderString b.author ++ ",\"isbn\":" ++
    renderOptString b.isbn ++ "\x7d"

/-- Comma-separated serialization of a list of books. -/
def renderBookListInner : List Book → String
  | [] => ""
  | [b] => renderBook b
  | b :: rest => renderBook b ++ "," ++ renderBookListInner rest

/-- Serialization of `Vec<Book>`: a compact JSON array. -/
def renderBookList (bs : List Book) : String :=
  "[" ++ renderBookListInner bs ++ "]"

/-- Mirrors `create_book`: decode the body as a `CreateBookRequest`; on
success take `id := next_id`, increment the counter, insert the new book and
answer `201 Created` with the book's JSON; on decode failure answer
`400 Invalid request body` and leave the store untouched. -/
def create_book (body : Option Json) (state : Storage) : HttpResponse × Storage :=
  match body.bind decodeCreate with
  | some create_req =>
    let id := state.next_id
    let book : Book :=
      { id := id, title := create_req.title, author := create_req.author,
        isbn := create_req.isbn }
    (json_response 201 (renderBook book),
      { books := insertBook id book state.books, next_id := state.next_id + 1 })
  | none => (bad_request "Invalid request body", state)

/-- Mirrors `get_all_books`: `200` with the JSON array of all stored books;
the store is unchanged. -/
def get_all_books (state : Storage) : HttpResponse × Storage :=
  (json_response 200 (renderBookList (state.books.map Prod.snd)), state)

/-- Mirrors `get_book`: `200` with the book's JSON when `id` is present,
`404` otherwise; the store is unchanged. -/
def get_book (id : Nat) (state : Storage) : HttpResponse × Storage :=
  match lookupBook id state.books with
  | some book => (json_response 200 (renderBook book), state)
  | none => (not_found, state)

/-- The field-by-field patch application performed inside `update_book`:
each `Some` field of the request overwrites the stored field (for `isbn`,
wrapping the value in `Some`), each `None` field is left unchanged. -/
def applyUpdate (u : UpdateBookRequest) (book : Book) : Book :=
  { book with
    title := match u.title with | some t => t | none => book.title
    author := match u.author with | some a => a | none => book.author
    isbn := match u.isbn with | some i => some i | none => book.isbn }

/-- Mirrors `update_book`: decode the body as an `UpdateBookRequest`; on
decode failure `400 Invalid request body`; else, when `id` is present, patch
the stored book in place and answer `200` with its JSON, and when absent
answer `404`; the store is only changed on the success path. -/
def update_book (id : Nat) (body : Option Json) (state : Storage) :
    HttpResponse × Storage :=
  match body.bind decodeUpdate with
  | some update_req =>
    match lookupBook id state.books with
    | some book =>
      let book := applyUpdate update_req book
      (json_response 200 (renderBook book),
        { books := replaceBook id book state.books, next_id := state.next_id })
    | none => (not_found, state)
  | none => (bad_request "Invalid request body", state)

/-- Mirrors `delete_book`: remove the book and answer `204` when `id` is
present, `404` otherwise. -/
def delete_book (id : Nat) (state : Storage) : HttpResponse × Storage :=
  if containsBook id state.books then
    (no_content, { books := removeBook id state.books, next_id := state.next_id })
  else
    (not_found, state)

/-- Fuel-driven loop of `str::trim_start_matches`: repeatedly drop the
pattern while it is a (non-empty) leading pattern of the string.  The fuel is
instantiated with the string length, which the loop can never exhaust since
every iteration removes at least one character. -/
def stripRepeatAux : Nat → List Char → List Char → List Char
  | 0, _, s => s
  | fuel + 1, pre, s =>
    if !pre.isEmpty && pre.isPrefixOf s then
      stripRepeatAux fuel pre (s.drop pre.length)
    else s

/-- Mirrors Rust `str::trim_start_matches(pat)`: all leading repetitions of
the pattern are removed. -/
def trim_start_matches (pat s : String) : String :=
  ⟨stripRepeatAux s.data.length pat.data s.data⟩

/-- Numeric value of a digit string (most significant first). -/
def digitsToNat (ds : List Char) : Nat :=
  ds.foldl (fun acc c => acc * 10 + (c.toNat - 48)) 0

/-- Drop a single leading `+` sign if present, as Rust's integer
`from_str_radix` does before scanning digits. -/
def stripPlus : List Char → List Char
  | [] => []
  | c :: rest => if c = '+' then rest else c :: rest

/-- Mirrors Rust `str::parse::<u64>()`: an optional single leading `+` sign,
then at least one ASCII decimal digit and nothing else, with the value
required to fit in 64 bits; everything else (including an empty string, a
`-` sign, a lone `+`, or trailing garbage) is an error. -/
def parseU64 (s : String) : Option Nat :=
  let ds := stripPlus s.data
  if ds.isEmpty then none
  else if ds.all Char.isDigit then
    if digitsToNat ds < 2 ^ 64 then some (digitsToNat ds) else none
  else none

/-- HTTP methods distinguished by the dispatcher; `OTHER` stands for any
further method. -/
inductive Method where
  | GET
  | POST
  | PUT
  | DELETE
  | OTHER
deriving DecidableEq, Repr

/-- Mirrors `handle_book_id`: parse the path after stripping `/books/` as a
`u64` and hand the id to the handler; on parse failure answer
`400 Invalid book ID` (the handler, and hence any store mutation, is never
reached). -/
def handle_book_id (path : String) (state : Storage)
    (handler : Nat → HttpResponse × Storage) : HttpResponse × Storage :=
  match parseU64 (trim_start_matches "/books/" path) with
  | some id => handler id
  | none => (bad_request "Invalid book ID", state)

/-- Mirrors the `match (method, path)` in `handle_request`: the routing
table of the service.  `List.isPrefixOf` models Rust `str::starts_with`. -/
def handle_request (method : Method) (path : String) (body : Option Json)
    (state : Storage) : HttpResponse × Storage :=
  if method = .POST ∧ path = "/books" then create_book body state
  else if method = .GET ∧ path = "/books" then get_all_books state
  else if method = .GET ∧ "/books/".data.isPrefixOf path.data = true then
    handle_book_id path state (fun id => get_book id state)
  else if method = .PUT ∧ "/books/".data.isPrefixOf path.data = true then
    handle_book_id path state (fun id => update_book id body state)
  else if method = .DELETE ∧ "/books/".data.isPrefixOf path.data = true then
    handle_book_id path state (fun id => delete_book id state)
  else (not_found, state)

/-! Basic lemmas about the association-list operations modelling the map. -/

theorem lookupBook_eq_none_iff (k : Nat) (l : List (Nat × Book)) :
    lookupBook k l = none ↔ k ∉ l.map Prod.fst := by
  induction l with
  | nil => simp [lookupBook]
  | cons p rest ih =>
    obtain ⟨k', b⟩ := p
    by_cases h : k' = k
    · subst h
      simp [lookupBook]
    · simp [lookupBook, h, ih, Ne.symm h]

theorem lookupBook_replaceBook_self {k : Nat} {b : Book} {l : List (Nat × Book)}
    (v : Book) (h : lookupBook k l = some b) :
    lookupBook k (replaceBook k v l) = some v := by
  induction l with
  | nil => simp [lookupBook] at h
  | cons p rest ih =>
    obtain ⟨k', b'⟩ := p
    by_cases hk : k' = k
    · simp [replaceBook, hk, lookupBook]
    · simp only [lookupBook, if_neg hk] at h
      simp [replaceBook, hk, lookupBook, ih h]

theorem lookupBook_replaceBook_ne {k k' : Nat} (h : k' ≠ k) (v : Book)
    (l : List (Nat × Book)) :
    lookupBook k' (replaceBook k v l) = lookupBook k' l := by
  induction l with
  | nil => simp [replaceBook]
  | cons p rest ih =>
    obtain ⟨a, b⟩ := p
    by_cases ha : a = k
    · subst ha
      simp [replaceBook, lookupBook, Ne.symm h, ih]
    · simp [replaceBook, ha, lookupBook, ih]

theorem replaceBook_lookup_self {k : Nat} {b : Book} {l : List (Nat × Book)}
    (h : lookupBook k l = some b) : replaceBook k b l = l := by
  induction l with
  | nil => simp [replaceBook]
  | cons p rest ih =>
    obtain ⟨k', b'⟩ := p
    by_cases hk : k' = k
    · subst hk
      simp [lookupBook] at h
      subst h
      simp [replaceBook]
    · simp only [lookupBook, if_neg hk] at h
      simp [replaceBook, hk, ih h]

theorem map_fst_replaceBook (k : Nat) (v : Book) (l : List (Nat × Book)) :
    (replaceBook k v l).map Prod.fst = l.map Prod.fst := by
  induction l with
  | nil => simp [replaceBook]
  | cons p rest ih =>
    obtain ⟨k', b'⟩ := p
    by_cases hk : k' = k
    · simp [replaceBook, hk]
    · simp [replaceBook, hk, ih]

theorem lookupBook_removeBook_self (k : Nat) (l : List (Nat × Book)) :
    lookupBook k (removeBook k l) = none := by
  induction l with
  | nil => simp [removeBook, lookupBook]
  | cons p rest ih =>
    obtain ⟨k', b'⟩ := p
    by_cases hk : k' = k
    · simp [removeBook, hk, ih]
    · simp [removeBook, hk, lookupBook, ih]

theorem lookupBook_removeBook_ne {k k' : Nat} (h : k' ≠ k) (l : List (Nat × Book)) :
    lookupBook k' (removeBook k l) = lookupBook k' l := by
  induction l with
  | nil => simp [removeBook]
  | cons p rest ih =>
    obtain ⟨a, b⟩ := p
    by_cases ha : a = k
    · subst ha
      simp [removeBook, lookupBook, Ne.symm h, ih]
    · simp [removeBook, ha, lookupBook, ih]

theorem map_fst_removeBook_sublist (k : Nat) (l : List (Nat × Book)) :
    List.Sublist ((removeBook k l).map Prod.fst) (l.map Prod.fst) := by
  induction l with
  | nil => simp [removeBook]
  | cons p rest ih =>
    obtain ⟨k', b'⟩ := p
    by_cases hk : k' = k
    · simp only [removeBook, if_pos hk, List.map_cons]
      exact ih.cons k'
    · simp only [removeBook, if_neg hk, List.map_cons]
      exact ih.cons₂ k'

theorem lookupBook_append_some {k : Nat} {b : Book} {l₁ : List (Nat × Book)}
    (l₂ : List (Nat × Book)) (h : lookupBook k l₁ = some b) :
    lookupBook k (l₁ ++ l₂) = some b := by
  induction l₁ with
  | nil => simp [lookupBook] at h
  | cons p rest ih =>
    obtain ⟨k', b'⟩ := p
    by_cases hk : k' = k
    · simp only [lookupBook, if_pos hk] at h
      simp [lookupBook, hk, h]
    · simp only [lookupBook, if_neg hk] at h
      simp [lookupBook, hk, ih h]

theorem lookupBook_append_none {k : Nat} {l₁ : List (Nat × Book)}
    (l₂ : List (Nat × Book)) (h : lookupBook k l₁ = none) :
    lookupBook k (l₁ ++ l₂) = lookupBook k l₂ := by
  induction l₁ with
  | nil => simp
  | cons p rest ih =>
    obtain ⟨k', b'⟩ := p
    by_cases hk : k' = k
    · simp [lookupBook, hk] at h
    · simp only [lookupBook, if_neg hk] at h
      simp [lookupBook, hk, ih h]

/-! Lemmas about the serde-style decoders. -/

theorem decodeCreateFields_no_title {fs : List (String × Json)}
    (hf : "title" ∉ fs.map Prod.fst) :
    ∀ a i, decodeCreateFields fs none a i = none := by
  induction fs with
  | nil => intro a i; rfl
  | cons p rest ih =>
    intro a i
    obtain ⟨k, v⟩ := p
    simp only [List.map_cons, List.mem_cons, not_or] at hf
    obtain ⟨hk, hrest⟩ := hf
    simp only [decodeCreateFields, if_neg (Ne.symm hk)]
    by_cases ha : k = "author"
    · simp only [if_pos ha]
      cases a <;> cases decodeString v <;> simp [ih hrest]
    · simp only [if_neg ha]
      by_cases hi : k = "isbn"
      · simp only [if_pos hi]
        cases i <;> cases decodeOptString v <;> simp [ih hrest]
      · simp only [if_neg hi]
        exact ih hrest a i

theorem decodeCreateFields_no_author {fs : List (String × Json)}
    (hf : "author" ∉ fs.map Prod.fst) :
    ∀ t i, decodeCreateFields fs t none i = none := by
  induction fs with
  | nil => intro t i; cases t <;> rfl
  | cons p rest ih =>
    intro t i
    obtain ⟨k, v⟩ := p
    simp only [List.map_cons, List.mem_cons, not_or] at hf
    obtain ⟨hk, hrest⟩ := hf
    simp only [decodeCreateFields]
    by_cases ht : k = "title"
    · simp only [if_pos ht]
      cases t <;> cases decodeString v <;> simp [ih hrest]
    · simp only [if_neg ht, if_neg (Ne.symm hk)]
      by_cases hi : k = "isbn"
      · simp only [if_pos hi]
        cases i <;> cases decodeOptString v <;> simp [ih hrest]
      · simp only [if_neg hi]
        exact ih hrest t i

theorem decodeCreate_missing_required {fs : List (String × Json)}
    (hf : "title" ∉ fs.map Prod.fst ∨ "author" ∉ fs.map Prod.fst) :
    decodeCreate (Json.obj fs) = none := by
  rcases hf with hf | hf
  · exact decodeCreateFields_no_title hf none none
  · exact decodeCreateFields_no_author hf none none

theorem decodeUpdateFields_title_slot {fs : List (String × Json)}
    (hf : "title" ∉ fs.map Prod.fst) :
    ∀ a i, decodeUpdateFields fs (some none) a i = decodeUpdateFields fs none a i := by
  induction fs with
  | nil => intro a i; rfl
  | cons p rest ih =>
    intro a i
    obtain ⟨k, v⟩ := p
    simp only [List.map_cons, List.mem_cons, not_or] at hf
    obtain ⟨hk, hrest⟩ := hf
    simp only [decodeUpdateFields, if_neg (Ne.symm hk)]
    by_cases ha : k = "author"
    · simp only [if_pos ha]
      cases a <;> cases decodeOptString v <;> simp [ih hrest]
    · simp only [if_neg ha]
      by_cases hi : k = "isbn"
      · simp only [if_pos hi]
        cases i <;> cases decodeOptString v <;> simp [ih hrest]
      · simp only [if_neg hi]
        exact ih hrest a i

theorem decodeUpdateFields_author_slot {fs : List (String × Json)}
    (hf : "author" ∉ fs.map Prod.fst) :
    ∀ t i, decodeUpdateFields fs t (some none) i = decodeUpdateFields fs t none i := by
  induction fs with
  | nil => intro t i; rfl
  | cons p rest ih =>
    intro t i
    obtain ⟨k, v⟩ := p
    simp only [List.map_cons, List.mem_cons, not_or] at hf
    obtain ⟨hk, hrest⟩ := hf
    simp only [decodeUpdateFields]
    by_cases ht : k = "title"
    · simp only [if_pos ht]
      cases t <;> cases decodeOptString v <;> simp [ih hrest]
    · simp only [if_neg ht, if_neg (Ne.symm hk)]
      by_cases hi : k = "isbn"
      · simp only [if_pos hi]
        cases i <;> cases decodeOptString v <;> simp [ih hrest]
      · simp only [if_neg hi]
        exact ih hrest t i

theorem decodeUpdateFields_isbn_slot {fs : List (String × Json)}
    (hf : "isbn" ∉ fs.map Prod.fst) :
    ∀ t a, decodeUpdateFields fs t a (some none) = decodeUpdateFields fs t a none := by
  induction fs with
  | nil => intro t a; rfl
  | cons p rest ih =>
    intro t a
    obtain ⟨k, v⟩ := p
    simp only [List.map_cons, List.mem_cons, not_or] at hf
    obtain ⟨hk, hrest⟩ := hf
    simp only [decodeUpdateFields]
    by_cases ht : k = "title"
    · simp only [if_pos ht]
      cases t <;> cases decodeOptString v <;> simp [ih hrest]
    · simp only [if_neg ht]
      by_cases ha : k = "author"
      · simp only [if_pos ha]
        cases a <;> cases decodeOptString v <;> simp [ih hrest]
      · simp only [if_neg ha, if_neg (Ne.symm hk)]
        exact ih hrest t a

theorem decodeUpdateFields_null_title {fs₂ : List (String × Json)}
    (h₂ : "title" ∉ fs₂.map Prod.fst) :
    ∀ fs₁, "title" ∉ fs₁.map Prod.fst →
      ∀ a i, decodeUpdateFields (fs₁ ++ ("title", Json.null) :: fs₂) none a i =
        decodeUpdateFields (fs₁ ++ fs₂) none a i := by
  intro fs₁
  induction fs₁ with
  | nil =>
    intro _ a i
    simp only [List.nil_append, decodeUpdateFields, if_pos rfl, decodeOptString]
    exact decodeUpdateFields_title_slot h₂ a i
  | cons p rest ih =>
    intro h₁ a i
    obtain ⟨k, v⟩ := p
    simp only [List.map_cons, List.mem_cons, not_or] at h₁
    obtain ⟨hk, hrest⟩ := h₁
    simp only [List.cons_append, decodeUpdateFields, if_neg (Ne.symm hk)]
    by_cases ha : k = "author"
    · simp only [if_pos ha]
      cases a <;> cases decodeOptString v <;> simp [ih hrest]
    · simp only [if_neg ha]
      by_cases hi : k = "isbn"
      · simp only [if_pos hi]
        cases i <;> cases decodeOptString v <;> simp [ih hrest]
      · simp only [if_neg hi]
        exact ih hrest a i

theorem decodeUpdateFields_null_author {fs₂ : List (String × Json)}
    (h₂ : "author" ∉ fs₂.map Prod.fst) :
    ∀ fs₁, "author" ∉ fs₁.map Prod.fst →
      ∀ t i, decodeUpdateFields (fs₁ ++ ("author", Json.null) :: fs₂) t none i =
        decodeUpdateFields (fs₁ ++ fs₂) t none i := by
  intro fs₁
  induction fs₁ with
  | nil =>
    intro _ t i
    simp only [List.nil_append, decodeUpdateFields, if_pos rfl, decodeOptString]
    have : ("author" : String) ≠ "title" := by decide
    simp only [if_neg this]
    exact decodeUpdateFields_author_slot h₂ t i
  | cons p rest ih =>
    intro h₁ t i
    obtain ⟨k, v⟩ := p
    simp only [List.map_cons, List.mem_cons, not_or] at h₁
    obtain ⟨hk, hrest⟩ := h₁
    simp only [List.cons_append, decodeUpdateFields]
    by_cases ht : k = "title"
    · simp only [if_pos ht]
      cases t <;> cases decodeOptString v <;> simp [ih hrest]
    · simp only [if_neg ht, if_neg (Ne.symm hk)]
      by_cases hi : k = "isbn"
      · simp only [if_pos hi]
        cases i <;> cases decodeOptString v <;> simp [ih hrest]
      · simp only [if_neg hi]
        exact ih hrest t i

theorem decodeUpdateFields_null_isbn {fs₂ : List (String × Json)}
    (h₂ : "isbn" ∉ fs₂.map Prod.fst) :
    ∀ fs₁, "isbn" ∉ fs₁.map Prod.fst →
      ∀ t a, decodeUpdateFields (fs₁ ++ ("isbn", Json.null) :: fs₂) t a none =
        decodeUpdateFields (fs₁ ++ fs₂) t a none := by
  intro fs₁
  induction fs₁ with
  | nil =>
    intro _ t a
    have ht : ("isbn" : String) ≠ "title" := by decide
    have ha : ("isbn" : String) ≠ "author" := by decide
    simp only [List.nil_append, decodeUpdateFields, if_neg ht, if_neg ha, if_pos rfl,
      decodeOptString]
    exact decodeUpdateFields_isbn_slot h₂ t a
  | cons p rest ih =>
    intro h₁ t a
    obtain ⟨k, v⟩ := p
    simp only [List.map_cons, List.mem_cons, not_or] at h₁
    obtain ⟨hk, hrest⟩ := h₁
    simp only [List.cons_append, decodeUpdateFields]
    by_cases ht : k = "title"
    · simp only [if_pos ht]
      cases t <;> cases decodeOptString v <;> simp [ih hrest]
    · simp only [if_neg ht]
      by_cases ha : k = "author"
      · simp only [if_pos ha]
        cases a <;> cases decodeOptString v <;> simp [ih hrest]
      · simp only [if_neg ha, if_neg (Ne.symm hk)]
        exact ih hrest t a

/-! Ghost-instrumented execution, for the reachability invariant. -/

/-- One request as seen by the dispatcher: method, path and body. -/
structure RequestLine where
  method : Method
  path : String
  body : Option Json

/-- A store together with the ghost list of identifiers ever issued by
`create_book`, in order of issue. -/
structure Trace where
  store : Storage
  issued : List Nat

/-- Initial trace: fresh store, no identifier issued yet. -/
def Trace.init : Trace :=
  { store := Storage.new, issued := [] }

/-- One request step: run the dispatcher and record the freshly issued
identifier whenever the counter moved, which happens exactly on a
successful `create_book`, the issued identifier being the old counter
value. -/
def stepRequest (t : Trace) (r : RequestLine) : Trace :=
  let s' := (handle_request r.method r.path r.body t.store).2
  { store := s',
    issued := if s'.next_id = t.store.next_id then t.issued
      else t.issued ++ [t.store.next_id] }

/-- Execution of a request sequence from process start. -/
def runRequests (rs : List RequestLine) : Trace :=
  rs.foldl stepRequest Trace.init

/-- The store invariant: every stored record's identifier equals its key in
the map and was issued at some point; the counter strictly dominates every
identifier ever issued; identifiers are never issued twice; and the map's
keys are pairwise distinct. -/
def StoreInv (t : Trace) : Prop :=
  (∀ k b, lookupBook k t.store.books = some b → b.id = k ∧ k ∈ t.issued) ∧
  (∀ i ∈ t.issued, i < t.store.next_id) ∧
  t.issued.Nodup ∧
  (t.store.books.map Prod.fst).Nodup

theorem applyUpdate_id (u : UpdateBookRequest) (b : Book) :
    (applyUpdate u b).id = b.id := rfl

theorem handle_request_state_shape (m : Method) (path : String)
    (body : Option Json) (s : Storage) :
    (handle_request m path body s).2 = s ∨
    (∃ req, body.bind decodeCreate = some req ∧
      (handle_request m path body s).2 =
        { books := insertBook s.next_id
            ⟨s.next_id, req.title, req.author, req.isbn⟩ s.books,
          next_id := s.next_id + 1 }) ∨
    (∃ id u b, body.bind decodeUpdate = some u ∧ lookupBook id s.books = some b ∧
      (handle_request m path body s).2 =
        { books := replaceBook id (applyUpdate u b) s.books,
          next_id := s.next_id }) ∨
    (∃ id, containsBook id s.books = true ∧
      (handle_request m path body s).2 =
        { books := removeBook id s.books, next_id := s.next_id }) := by
  rw [handle_request]
  split_ifs with h1 h2 h3 h4 h5
  · cases hdec : body.bind decodeCreate with
    | none => exact Or.inl (by simp [create_book, hdec])
    | some req =>
      exact Or.inr (Or.inl ⟨req, rfl, by simp [create_book, hdec]⟩)
  · exact Or.inl rfl
  · rw [handle_book_id]
    cases hp : parseU64 (trim_start_matches "/books/" path) with
    | none => exact Or.inl rfl
    | some id =>
      cases hb : lookupBook id s.books with
      | none => exact Or.inl (by simp [get_book, hb])
      | some b => exact Or.inl (by simp [get_book, hb])
  · rw [handle_book_id]
    cases hp : parseU64 (trim_start_matches "/books/" path) with
    | none => exact Or.inl rfl
    | some id =>
      cases hdec : body.bind decodeUpdate with
      | none => exact Or.inl (by simp [update_book, hdec])
      | some u =>
        cases hb : lookupBook id s.books with
        | none => exact Or.inl (by simp [update_book, hdec, hb])
        | some b =>
          exact Or.inr (Or.inr (Or.inl
            ⟨id, u, b, rfl, hb, by simp [update_book, hdec, hb]⟩))
  · rw [handle_book_id]
    cases hp : parseU64 (trim_start_matches "/books/" path) with
    | none => exact Or.inl rfl
    | some id =>
      cases hc : containsBook id s.books with
      | false => exact Or.inl (by simp [delete_book, hc])
      | true =>
        exact Or.inr (Or.inr (Or.inr ⟨id, hc, by simp [delete_book, hc]⟩))
  · exact Or.inl rfl

theorem stepRequest_preserves {t : Trace} (r : RequestLine) (h : StoreInv t) :
    StoreInv (stepRequest t r) := by
  obtain ⟨h1, h2, h3, h4⟩ := h
  rcases handle_request_state_shape r.method r.path r.body t.store with
    hs | ⟨req, hdec, hs⟩ | ⟨id, u, b, hdec, hb, hs⟩ | ⟨id, hc, hs⟩
  · rw [stepRequest]
    simp only [hs, if_pos rfl]
    exact ⟨h1, h2, h3, h4⟩
  · have hfree : lookupBook t.store.next_id t.store.books = none := by
      cases hl : lookupBook t.store.next_id t.store.books with
      | none => rfl
      | some b =>
        have := (h1 _ _ hl).2
        have := h2 _ this
        omega
    have hins : insertBook t.store.next_id
        ⟨t.store.next_id, req.title, req.author, req.isbn⟩ t.store.books =
        t.store.books ++ [(t.store.next_id,
          ⟨t.store.next_id, req.title, req.author, req.isbn⟩)] := by
      rw [insertBook, containsBook, hfree]
      rfl
    rw [stepRequest]
    simp only [hs, hins]
    rw [if_neg (by omega)]
    unfold StoreInv
    dsimp only
    refine ⟨?_, ?_, ?_, ?_⟩
    · intro k b' hk
      cases hl : lookupBook k t.store.books with
      | some b'' =>
        rw [lookupBook_append_some _ hl] at hk
        cases hk
        exact ⟨(h1 _ _ hl).1, List.mem_append_left _ (h1 _ _ hl).2⟩
      | none =>
        rw [lookupBook_append_none _ hl] at hk
        simp only [lookupBook] at hk
        by_cases hkk : t.store.next_id = k
        · rw [if_pos hkk] at hk
          cases hk
          subst hkk
          exact ⟨rfl, List.mem_append_right _ (by simp)⟩
        · rw [if_neg hkk] at hk
          simp at hk
    · intro i hi
      rcases List.mem_append.mp hi with hi | hi
      · have := h2 _ hi
        omega
      · simp at hi
        omega
    · refine h3.append (List.nodup_singleton _) ?_
      intro a ha ha'
      simp only [List.mem_singleton] at ha'
      subst ha'
      have := h2 _ ha
      omega
    · rw [List.map_append]
      refine h4.append (List.nodup_singleton _) ?_
      intro a ha ha'
      simp only [List.map_cons, List.map_nil, List.mem_singleton] at ha'
      subst ha'
      exact absurd ha ((lookupBook_eq_none_iff _ _).mp hfree)
  · rw [stepRequest]
    simp only [hs, if_pos rfl]
    refine ⟨?_, h2, h3, ?_⟩
    · intro k b' hk
      by_cases hki : k = id
      · subst hki
        rw [lookupBook_replaceBook_self _ hb] at hk
        cases hk
        exact ⟨(applyUpdate_id u b).trans (h1 _ _ hb).1, (h1 _ _ hb).2⟩
      · rw [lookupBook_replaceBook_ne hki _ _] at hk
        exact h1 _ _ hk
    · rw [map_fst_replaceBook]
      exact h4
  · rw [stepRequest]
    simp only [hs, if_pos rfl]
    refine ⟨?_, h2, h3, ?_⟩
    · intro k b' hk
      by_cases hki : k = id
      · subst hki
        rw [lookupBook_removeBook_self] at hk
        cases hk
      · rw [lookupBook_removeBook_ne hki] at hk
        exact h1 _ _ hk
    · exact List.Nodup.sublist (map_fst_removeBook_sublist id _) h4

theorem storeInv_init : StoreInv Trace.init := by
  refine ⟨?_, ?_, ?_, ?_⟩ <;> simp [Trace.init, Storage.new, lookupBook, StoreInv]

theorem foldl_stepRequest_preserves (rs : List RequestLine) :
    ∀ t, StoreInv t → StoreInv (rs.foldl stepRequest t) := by
  induction rs with
  | nil => intro t h; exact h
  | cons r rest ih =>
    intro t h
    exact ih _ (stepRequest_preserves r h)

/-! Characterisation of the identifier-parsing policy. -/

/-- Spec-side description of the numerals accepted as a book identifier: an
optional single leading `+` sign followed by one or more ASCII decimal
digits, whose value fits in 64 bits. -/
def AcceptedIdNumeral (cs : List Char) (v : Nat) : Prop :=
  ∃ ds, (cs = ds ∨ cs = '+' :: ds) ∧ ds ≠ [] ∧ (∀ c ∈ ds, c.isDigit = true) ∧
    digitsToNat ds = v ∧ v < 2 ^ 64

theorem parseU64_some_iff (s : String) (v : Nat) :
    parseU64 s = some v ↔ AcceptedIdNumeral s.data v := by
  rcases hd : s.data with _ | ⟨c, rest⟩
  · constructor
    · intro h
      rw [parseU64, hd] at h
      simp [stripPlus] at h
    · rintro ⟨ds, hds, hne, -⟩
      rcases hds with rfl | h
      · exact absurd rfl hne
      · cases h
  · by_cases hc : c = '+'
    · subst hc
      have hstrip : stripPlus s.data = rest := by rw [hd]; simp [stripPlus]
      constructor
      · intro h
        rw [parseU64, hstrip] at h
        by_cases hne : rest.isEmpty
        · rw [if_pos hne] at h; cases h
        · rw [if_neg hne] at h
          by_cases hall : rest.all Char.isDigit
          · rw [if_pos hall] at h
            by_cases hlt : digitsToNat rest < 2 ^ 64
            · rw [if_pos hlt] at h
              cases h
              exact ⟨rest, Or.inr rfl, by simpa using hne,
                List.all_eq_true.mp hall, rfl, hlt⟩
            · rw [if_neg hlt] at h; cases h
          · rw [if_neg hall] at h; cases h
      · rintro ⟨ds, hds, hne, hdig, hval, hlt⟩
        rcases hds with hds | hds
        · exfalso
          have : ('+' : Char) ∈ ds := by rw [← hds]; exact List.mem_cons_self _ _
          have := hdig _ this
          simp [Char.isDigit] at this
        · have hrd : ds = rest := by
            injection hds with _ h2
            exact h2.symm
          subst hrd
          rw [parseU64, hstrip, if_neg (by simpa using hne),
            if_pos (List.all_eq_true.mpr hdig), hval, if_pos hlt]
    · have hstrip : stripPlus s.data = c :: rest := by rw [hd]; simp [stripPlus, hc]
      constructor
      · intro h
        rw [parseU64, hstrip] at h
        by_cases hall : (c :: rest).all Char.isDigit
        · rw [if_neg (by simp), if_pos hall] at h
          by_cases hlt : digitsToNat (c :: rest) < 2 ^ 64
          · rw [if_pos hlt] at h
            cases h
            exact ⟨c :: rest, Or.inl rfl, by simp,
              List.all_eq_true.mp hall, rfl, hlt⟩
          · rw [if_neg hlt] at h; cases h
        · rw [if_neg (by simp), if_neg hall] at h; cases h
      · rintro ⟨ds, hds, hne, hdig, hval, hlt⟩
        rcases hds with hds | hds
        · have hrd : ds = c :: rest := hds.symm
          subst hrd
          rw [parseU64, hstrip, if_neg (by simp),
            if_pos (List.all_eq_true.mpr hdig), hval, if_pos hlt]
        · exfalso
          injection hds with h1 _
          exact hc h1

/-! Concrete fixtures used by the witness theorems. -/

/-- A sample stored book. -/
def wBook : Book :=
  { id := 1, title := "Dune", author := "Herbert", isbn := none }

/-- A sample store holding `wBook` under its identifier. -/
def wStore : Storage :=
  { books := [(1, wBook)], next_id := 2 }

/-! The claims. -/

/-- C1: for a stored record with identifier `idv` and any decoded patch,
`update_book` overwrites exactly the fields present in the patch, leaves
every absent field unchanged, stores and returns the full updated record
(so a subsequent `get` observes the patched fields and the prior values of
the absent ones), and touches no other key; if `idv` is absent it answers
`404 Not Found` and no record changes. -/
theorem update_patches_present_fields_only (idv : Nat) (s : Storage) (j : Json)
    (u : UpdateBookRequest) (hdec : decodeUpdate j = some u) :
    (∀ b, lookupBook idv s.books = some b →
      update_book idv (some j) s =
        (json_response 200 (renderBook (applyUpdate u b)),
          { books := replaceBook idv (applyUpdate u b) s.books,
            next_id := s.next_id }) ∧
      lookupBook idv (update_book idv (some j) s).2.books =
        some (applyUpdate u b) ∧
      (∀ k, k ≠ idv →
        lookupBook k (update_book idv (some j) s).2.books =
          lookupBook k s.books) ∧
      (applyUpdate u b).id = b.id ∧
      (applyUpdate u b).title = u.title.getD b.title ∧
      (applyUpdate u b).author = u.author.getD b.author ∧
      (applyUpdate u b).isbn = (u.isbn.map some).getD b.isbn) ∧
    (lookupBook idv s.books = none →
      update_book idv (some j) s = (not_found, s)) := by
  constructor
  · intro b hb
    have hu : update_book idv (some j) s =
        (json_response 200 (renderBook (applyUpdate u b)),
          { books := replaceBook idv (applyUpdate u b) s.books,
            next_id := s.next_id }) := by
      simp [update_book, hdec, hb]
    refine ⟨hu, ?_, ?_, rfl, ?_, ?_, ?_⟩
    · rw [hu]
      exact lookupBook_replaceBook_self _ hb
    · intro k hk
      rw [hu]
      exact lookupBook_replaceBook_ne hk _ _
    · cases htt : u.title <;> simp [applyUpdate, htt]
    · cases hta : u.author <;> simp [applyUpdate, hta]
    · cases hti : u.isbn <;> simp [applyUpdate, hti]
  · intro hn
    simp [update_book, hdec, hn]

/-- Witness for C1: patching the title of the stored sample book. -/
theorem update_patches_present_fields_only_witness :
    update_book 1 (some (Json.obj [("title", Json.str "Dune Messiah")])) wStore =
      (json_response 200
          (renderBook (applyUpdate ⟨some "Dune Messiah", none, none⟩ wBook)),
        { books := replaceBook 1
            (applyUpdate ⟨some "Dune Messiah", none, none⟩ wBook) wStore.books,
          next_id := wStore.next_id }) :=
  ((update_patches_present_fields_only 1 wStore
      (Json.obj [("title", Json.str "Dune Messiah")])
      ⟨some "Dune Messiah", none, none⟩ (by decide)).1 wBook (by decide)).1

/-- C2: in every state reachable from the initial store by any sequence of
requests (covering create, get, getAll, update and delete), every stored
record's identifier equals its key in the map, the `next_id` counter is
strictly greater than every identifier ever issued, and identifiers are
pairwise distinct and never reused, including across deletions. -/
theorem reachable_store_invariant (rs : List RequestLine) :
    StoreInv (runRequests rs) :=
  foldl_stepRequest_preserves rs Trace.init storeInv_init

/-- Witness for C2: the invariant after a create followed by a delete. -/
theorem reachable_store_invariant_witness :
    StoreInv (runRequests
      [⟨.POST, "/books",
          some (Json.obj [("title", Json.str "Dune"), ("author", Json.str "Herbert")])⟩,
        ⟨.DELETE, "/books/1", none⟩]) :=
  reachable_store_invariant _

/-- C3 is refuted: `GET /books/+0` carries a sign character in the id
segment, yet the service does not answer `400 Bad Request`; the segment
parses (Rust `u64` parsing accepts a single leading `+`), the lookup runs
and answers `404 Not Found`. -/
theorem plus_sign_id_accepted :
    (handle_request .GET "/books/+0" none Storage.new).1.status = 404 ∧
    ¬(handle_request .GET "/books/+0" none Storage.new).1.status = 400 := by
  decide

/-- C3 (amended): for every `GET`, `PUT` or `DELETE` request on a path with
prefix `/books/`, the id segment is the remainder of the path after
stripping all leading repetitions of `/books/`; the request is answered
with `400 Invalid book ID` exactly when that segment fails to parse, and the
segment parses to `v` exactly when it is an optional single leading `+`
followed by one or more ASCII digits whose value `v` fits in 64 bits. -/
theorem book_id_parse_policy (m : Method) (path : String) (body : Option Json)
    (s : Storage) (hm : m = .GET ∨ m = .PUT ∨ m = .DELETE)
    (hpre : "/books/".data.isPrefixOf path.data = true) :
    ((handle_request m path body s).1 = bad_request "Invalid book ID" ↔
      parseU64 (trim_start_matches "/books/" path) = none) ∧
    (∀ v, parseU64 (trim_start_matches "/books/" path) = some v ↔
      AcceptedIdNumeral (trim_start_matches "/books/" path).data v) := by
  have hnb : path ≠ "/books" := by
    rintro rfl
    revert hpre
    decide
  have hmsg : bad_request "Invalid request body" ≠ bad_request "Invalid book ID" := by
    decide
  refine ⟨?_, fun v => parseU64_some_iff _ v⟩
  rcases hm with rfl | rfl | rfl
  · rw [handle_request, if_neg (by simp), if_neg (by simp [hnb]),
      if_pos ⟨rfl, hpre⟩, handle_book_id]
    cases hp : parseU64 (trim_start_matches "/books/" path) with
    | none => simp
    | some id =>
      cases hb : lookupBook id s.books with
      | none => simp [get_book, hb, not_found, bad_request]
      | some b => simp [get_book, hb, json_response, bad_request]
  · rw [handle_request, if_neg (by simp), if_neg (by simp), if_neg (by simp),
      if_pos ⟨rfl, hpre⟩, handle_book_id]
    cases hp : parseU64 (trim_start_matches "/books/" path) with
    | none => simp
    | some id =>
      cases hdec : body.bind decodeUpdate with
      | none => simp [update_book, hdec, hmsg]
      | some u =>
        cases hb : lookupBook id s.books with
        | none => simp [update_book, hdec, hb, not_found, bad_request]
        | some b => simp [update_book, hdec, hb, json_response, bad_request]
  · rw [handle_request, if_neg (by simp), if_neg (by simp), if_neg (by simp),
      if_neg (by simp), if_pos ⟨rfl, hpre⟩, handle_book_id]
    cases hp : parseU64 (trim_start_matches "/books/" path) with
    | none => simp
    | some id =>
      cases hc : containsBook id s.books with
      | false => simp [delete_book, hc, not_found, bad_request]
      | true => simp [delete_book, hc, no_content, bad_request]

/-- Witness for C3 (amended): a non-numeric id segment answers
`400 Invalid book ID`. -/
theorem book_id_parse_policy_witness :
    (handle_request .GET "/books/abc" none Storage.new).1 =
        bad_request "Invalid book ID" ↔
      parseU64 (trim_start_matches "/books/" "/books/abc") = none :=
  (book_id_parse_policy .GET "/books/abc" none Storage.new (Or.inl rfl)
    (by decide)).1

/-- C4 is refuted: a creation payload whose title and author are empty
strings is accepted: the service answers `201 Created` and stores the
record, while the claim requires a `400 Bad Request` rejection with no
record created. -/
theorem empty_title_author_created :
    handle_request .POST "/books"
        (some (Json.obj [("title", Json.str ""), ("author", Json.str "")]))
        Storage.new =
      ({ status := 201, contentTypeJson := true,
          body := "\x7b\"id\":1,\"title\":\"\",\"author\":\"\",\"isbn\":null\x7d" },
        { books := [(1, { id := 1, title := "", author := "", isbn := none })],
          next_id := 2 }) := by
  decide

/-- C4 (amended): a creation payload missing `title` or `author` is
rejected with `400 Bad Request` and creates no record; any payload that
decodes — supplying `title` and `author` as JSON strings, empty strings
included — is accepted with `201 Created` and the record is stored. -/
theorem create_requires_title_author_fields (fs : List (String × Json))
    (s : Storage) :
    (("title" ∉ fs.map Prod.fst ∨ "author" ∉ fs.map Prod.fst) →
      handle_request .POST "/books" (some (Json.obj fs)) s =
        (bad_request "Invalid request body", s)) ∧
    (∀ j req, decodeCreate j = some req →
      handle_request .POST "/books" (some j) s =
        (json_response 201
            (renderBook ⟨s.next_id, req.title, req.author, req.isbn⟩),
          { books := insertBook s.next_id
              ⟨s.next_id, req.title, req.author, req.isbn⟩ s.books,
            next_id := s.next_id + 1 })) := by
  constructor
  · intro hf
    have hdec := decodeCreate_missing_required hf
    rw [handle_request, if_pos ⟨rfl, rfl⟩]
    simp [create_book, hdec]
  · intro j req hdec
    rw [handle_request, if_pos ⟨rfl, rfl⟩]
    simp [create_book, hdec]

/-- Witness for C4 (amended): a payload without a title is rejected and the
store is untouched. -/
theorem create_requires_title_author_fields_witness :
    handle_request .POST "/books"
        (some (Json.obj [("author", Json.str "Herbert")])) Storage.new =
      (bad_request "Invalid request body", Storage.new) :=
  (create_requires_title_author_fields [("author", Json.str "Herbert")]
      Storage.new).1 (Or.inl (by decide))

/-- C5: a decoded patch with a present `isbn` always stores `some` of that
value; omitting `isbn` leaves it unchanged; and no request body whatsoever
— malformed, undecodable or decoded — can take a stored `isbn` from `some`
back to `none`. -/
theorem isbn_only_ever_set (idv : Nat) (s : Storage) (b : Book)
    (hb : lookupBook idv s.books = some b) :
    (∀ j u v, decodeUpdate j = some u → u.isbn = some v →
      lookupBook idv (update_book idv (some j) s).2.books =
        some (applyUpdate u b) ∧
      (applyUpdate u b).isbn = some v) ∧
    (∀ u : UpdateBookRequest, u.isbn = none → (applyUpdate u b).isbn = b.isbn) ∧
    (∀ x, b.isbn = some x → ∀ body b',
      lookupBook idv (update_book idv body s).2.books = some b' →
      b'.isbn ≠ none) := by
  refine ⟨?_, ?_, ?_⟩
  · intro j u v hdec hv
    have h2 : (update_book idv (some j) s).2 =
        { books := replaceBook idv (applyUpdate u b) s.books,
          next_id := s.next_id } := by
      simp [update_book, hdec, hb]
    constructor
    · rw [h2]
      exact lookupBook_replaceBook_self _ hb
    · simp [applyUpdate, hv]
  · intro u hu
    simp [applyUpdate, hu]
  · intro x hx body b' hb'
    cases body with
    | none =>
      simp only [update_book, Option.none_bind] at hb'
      rw [hb] at hb'
      cases hb'
      simp [hx]
    | some j =>
      cases hdec : decodeUpdate j with
      | none =>
        simp only [update_book, Option.some_bind, hdec] at hb'
        rw [hb] at hb'
        cases hb'
        simp [hx]
      | some u =>
        have h2 : (update_book idv (some j) s).2 =
            { books := replaceBook idv (applyUpdate u b) s.books,
              next_id := s.next_id } := by
          simp [update_book, hdec, hb]
        rw [h2, lookupBook_replaceBook_self (applyUpdate u b) hb] at hb'
        cases hb'
        cases hui : u.isbn <;> simp [applyUpdate, hui, hx]

/-- Witness for C5: setting the isbn of the stored sample book. -/
theorem isbn_only_ever_set_witness :
    lookupBook 1
        (update_book 1 (some (Json.obj [("isbn", Json.str "123")])) wStore).2.books =
      some (applyUpdate ⟨none, none, some "123"⟩ wBook) ∧
    (applyUpdate ⟨none, none, some "123"⟩ wBook).isbn = some "123" :=
  (isbn_only_ever_set 1 wStore wBook (by decide)).1
    (Json.obj [("isbn", Json.str "123")]) ⟨none, none, some "123"⟩ "123"
    (by decide) rfl

/-- C6: updating a stored record with a patch whose fields are all absent
answers `200 OK` with the record's JSON and leaves the store — record and
map alike — exactly unchanged. -/
theorem empty_patch_leaves_record_unchanged (idv : Nat) (s : Storage) (b : Book)
    (j : Json) (hdec : decodeUpdate j = some ⟨none, none, none⟩)
    (hb : lookupBook idv s.books = some b) :
    update_book idv (some j) s = (json_response 200 (renderBook b), s) := by
  have ha : applyUpdate ⟨none, none, none⟩ b = b := rfl
  simp [update_book, hdec, hb, ha, replaceBook_lookup_self hb]

/-- Witness for C6: the empty JSON object patch on the sample store. -/
theorem empty_patch_leaves_record_unchanged_witness :
    update_book 1 (some (Json.obj [])) wStore =
      (json_response 200 (renderBook wBook), wStore) :=
  empty_patch_leaves_record_unchanged 1 wStore wBook (Json.obj [])
    (by decide) (by decide)

/-- C7: after a delete of `idv` — successful or not — a `get` of `idv`
answers `404 Not Found`, and a second delete also answers `404 Not Found`
without changing the store further; a successful delete itself answers
`204 No Content`. -/
theorem delete_then_get_not_found (idv : Nat) (s : Storage) :
    (get_book idv (delete_book idv s).2).1 = not_found ∧
    (delete_book idv (delete_book idv s).2).1 = not_found ∧
    (delete_book idv (delete_book idv s).2).2 = (delete_book idv s).2 ∧
    (containsBook idv s.books = true → (delete_book idv s).1 = no_content) := by
  cases hc : containsBook idv s.books with
  | true =>
    have h2 : (delete_book idv s).2 =
        { books := removeBook idv s.books, next_id := s.next_id } := by
      simp [delete_book, hc]
    have hl : lookupBook idv (removeBook idv s.books) = none :=
      lookupBook_removeBook_self _ _
    have hc2 : containsBook idv (removeBook idv s.books) = false := by
      simp [containsBook, hl]
    refine ⟨?_, ?_, ?_, fun _ => by simp [delete_book, hc]⟩
    · rw [h2]
      simp [get_book, hl]
    · rw [h2]
      simp [delete_book, hc2]
    · rw [h2]
      simp [delete_book, hc2]
  | false =>
    have hl : lookupBook idv s.books = none := by
      rcases hh : lookupBook idv s.books with _ | b
      · rfl
      · rw [containsBook, hh] at hc
        cases hc
    have h2 : (delete_book idv s).2 = s := by simp [delete_book, hc]
    refine ⟨?_, ?_, ?_, fun h => by simp at h⟩
    · rw [h2]
      simp [get_book, hl]
    · rw [h2]
      simp [delete_book, hc]
    · rw [h2]
      simp [delete_book, hc]

/-- Witness for C7: deleting the sample book. -/
theorem delete_then_get_not_found_witness :
    containsBook 1 wStore.books = true ∧
    (delete_book 1 wStore).1 = no_content ∧
    (get_book 1 (delete_book 1 wStore).2).1 = not_found ∧
    (delete_book 1 (delete_book 1 wStore).2).1 = not_found :=
  ⟨by decide, (delete_then_get_not_found 1 wStore).2.2.2 (by decide),
    (delete_then_get_not_found 1 wStore).1,
    (delete_then_get_not_found 1 wStore).2.1⟩

/-- C8: from the empty initial store, `POST /books` with title `Dune` and
author `Herbert` answers `201 Created` with body
`{"id":1,"title":"Dune","author":"Herbert","isbn":null}`: the first
identifier issued is `1` and the omitted isbn is serialized as `null`. -/
theorem first_create_scenario :
    handle_request .POST "/books"
        (some (Json.obj [("title", Json.str "Dune"), ("author", Json.str "Herbert")]))
        Storage.new =
      ({ status := 201, contentTypeJson := true,
          body := "\x7b\"id\":1,\"title\":\"Dune\",\"author\":\"Herbert\",\"isbn\":null\x7d" },
        { books := [(1, { id := 1, title := "Dune", author := "Herbert", isbn := none })],
          next_id := 2 }) := by
  decide

/-- C9: in a `PUT` patch body, an explicit JSON `null` for `title`, `author`
or `isbn` decodes exactly as if the field were omitted, and `update_book`
behaves identically on the two bodies — explicit `null` is indistinguishable
from absence. -/
theorem null_patch_field_equals_absent (k : String) (fs₁ fs₂ : List (String × Json))
    (hk : k = "title" ∨ k = "author" ∨ k = "isbn")
    (hnot : k ∉ (fs₁ ++ fs₂).map Prod.fst) :
    decodeUpdate (Json.obj (fs₁ ++ (k, Json.null) :: fs₂)) =
      decodeUpdate (Json.obj (fs₁ ++ fs₂)) ∧
    (∀ idv s, update_book idv (some (Json.obj (fs₁ ++ (k, Json.null) :: fs₂))) s =
      update_book idv (some (Json.obj (fs₁ ++ fs₂))) s) := by
  have hdec : decodeUpdate (Json.obj (fs₁ ++ (k, Json.null) :: fs₂)) =
      decodeUpdate (Json.obj (fs₁ ++ fs₂)) := by
    rw [List.map_append] at hnot
    rw [List.mem_append] at hnot
    push_neg at hnot
    obtain ⟨h₁, h₂⟩ := hnot
    rcases hk with rfl | rfl | rfl
    · exact decodeUpdateFields_null_title h₂ fs₁ h₁ none none
    · exact decodeUpdateFields_null_author h₂ fs₁ h₁ none none
    · exact decodeUpdateFields_null_isbn h₂ fs₁ h₁ none none
  refine ⟨hdec, fun idv s => ?_⟩
  rw [update_book, update_book, Option.some_bind, Option.some_bind, hdec]

/-- Witness for C9: an explicit `isbn: null` next to a title patch decodes
as if `isbn` were omitted. -/
theorem null_patch_field_equals_absent_witness :
    decodeUpdate (Json.obj [("title", Json.str "X"), ("isbn", Json.null)]) =
      decodeUpdate (Json.obj [("title", Json.str "X")]) :=
  (null_patch_field_equals_absent "isbn" [("title", Json.str "X")] []
    (Or.inr (Or.inr rfl)) (by decide)).1

/-- C10: every request answered with status `400` or `404` leaves the store
— the record map and the `next_id` counter — exactly as it was: no error
path mutates. -/
theorem error_responses_leave_store (m : Method) (path : String)
    (body : Option Json) (s : Storage) :
    (handle_request m path body s).1.status = 400 ∨
      (handle_request m path body s).1.status = 404 →
    (handle_request m path body s).2 = s := by
  rw [handle_request]
  split_ifs with h1 h2 h3 h4 h5
  · cases hdec : body.bind decodeCreate with
    | none => intro _; simp [create_book, hdec]
    | some req =>
      intro h
      exfalso
      simp [create_book, hdec, json_response] at h
  · intro _
    rfl
  · rw [handle_book_id]
    cases hp : parseU64 (trim_start_matches "/books/" path) with
    | none => intro _; rfl
    | some id =>
      cases hb : lookupBook id s.books with
      | none => intro _; simp [get_book, hb]
      | some b => intro _; simp [get_book, hb]
  · rw [handle_book_id]
    cases hp : parseU64 (trim_start_matches "/books/" path) with
    | none => intro _; rfl
    | some id =>
      cases hdec : body.bind decodeUpdate with
      | none => intro _; simp [update_book, hdec]
      | some u =>
        cases hb : lookupBook id s.books with
        | none => intro _; simp [update_book, hdec, hb]
        | some b =>
          intro h
          exfalso
          simp [update_book, hdec, hb, json_response] at h
  · rw [handle_book_id]
    cases hp : parseU64 (trim_start_matches "/books/" path) with
    | none => intro _; rfl
    | some id =>
      cases hc : containsBook id s.books with
      | false => intro _; simp [delete_book, hc]
      | true =>
        intro h
        exfalso
        simp [delete_book, hc, no_content] at h
  · intro _
    rfl

/-- Witness for C10: a `404` on a missing id leaves the fresh store
unchanged. -/
theorem error_responses_leave_store_witness :
    (handle_request .GET "/books/99" none Storage.new).1.status = 404 ∧
    (handle_request .GET "/books/99" none Storage.new).2 = Storage.new :=
  ⟨by decide,
    error_responses_leave_store .GET "/books/99" none Storage.new
      (Or.inr (by decide))⟩

end BookService
